import Mathlib

/-!
Verification development for the tinypic comic-archive compressor.

This file is a shallow embedding, in Lean 4, of the image-analysis and
compression core of the repository (src/core/compressor.py,
src/core/cropper.py, src/core/splitter.py, src/core/processor.py),
together with theorems settling the frozen claims about it.

Modelling conventions:
* A PIL image is modelled by `Img`: a color mode, a width, a height and a
  row-major pixel grid.  Pixel channel values are natural numbers in 0..255.
  For single-channel (`L`) images the gray value is stored in the `r`
  channel; for `LA` images `r` holds the luminance and `a` the alpha; for
  palette (`P`) images the palette-resolved RGBA value is stored directly
  in the pixel (the palette indirection itself is not modelled, no claim
  depends on it).
* Byte strings fed to the engine are modelled by `RawInput`: the result of
  `PIL.Image.open` on the bytes (`none` when decoding raises), the
  container format reported by PIL, and the byte length.  JPEG byte
  serialisation is not modelled: the engine's output is represented as the
  final in-memory image paired with the parameters passed to the encoder
  (`SaveParams`), which is exactly the data the claims speak about.
* Exceptions are modelled by `Option`: `none` stands for an exception
  propagating out of the modelled function.  Two sources exist in the
  embedded code: the decode failure of `Image.open`, and the `IndexError`
  that `detect_background_color` raises via `gray.getpixel((5, 5))` (and
  the other three corners) on any image narrower or shorter than 6
  pixels; the latter propagates out of `crop_margins`,
  `crop_page_number`, `apply_crop`, `compress_image` and
  `split_and_compress` exactly as the Python exception does (it is caught
  only by the pipeline's per-task error collection, which is outside
  these functions).
* Python float arithmetic on the small constants (0.02, 0.15, 0.25, ...)
  is modelled with exact rational arithmetic (`ℚ`).  `int(x)` is modelled
  by truncation toward zero (`ratTrunc`), matching CPython.
* PIL primitives used by the source (grayscale conversion, autocontrast
  with cutoff 1, BoxBlur radius 1, point, histogram, getbbox, crop, paste)
  are modelled from their Pillow implementations with exact integer
  arithmetic (the BoxBlur fixed-point rounding `(acc*5592405 + 2^23) >> 24`
  and the MULDIV255 rounding of alpha compositing are reproduced exactly).
* `numpy.random.choice` under the fixed seed 42 (used only to pick the
  pixel sample of `is_grayscale_image`) is abstracted as the first
  `sample_count` cell indices; no claim depends on which cells are sampled.
-/

namespace Tinypic

/-- PIL color modes that appear in the source. `Other` stands for any
further mode (e.g. CMYK), which the source only ever converts to RGB. -/
inductive PilMode
  | L
  | RGB
  | RGBA
  | P
  | LA
  | Other
deriving DecidableEq, Repr

/-- One pixel; channel values 0..255.  For `L` images only `r` is
meaningful, for `LA` images `r` (luminance) and `a` (alpha). -/
structure Pix where
  r : Nat
  g : Nat
  b : Nat
  a : Nat
deriving DecidableEq, Repr

/-- An in-memory decoded raster (model of a PIL image): mode, size and a
row-major pixel grid `px` (`px[y][x]`). -/
structure Img where
  mode : PilMode
  width : Nat
  height : Nat
  px : List (List Pix)
deriving DecidableEq, Repr

/-- Result of decoding an input byte string: `PIL.Image.open` outcome
(`none` models a decode exception), the PIL-reported container format
(`img.format`), and the byte length of the input. -/
structure RawInput where
  decode : Option Img
  format : Option String
  byteLen : Nat
deriving DecidableEq, Repr

/-- The parameters the engine passes to the JPEG encoder in
`img.save(...)`: the `quality` value and whether 4:2:0 chroma subsampling
and progressive layout were requested. -/
structure SaveParams where
  quality : Int
  subsampling420 : Bool
  progressive : Bool
deriving DecidableEq, Repr

/-- Pixel access with PIL crop semantics: coordinates outside the image
read as zero-filled pixels. -/
def pixAt (img : Img) (x y : Int) : Pix :=
  if 0 ≤ x ∧ 0 ≤ y then
    ((img.px.getD y.toNat []).getD x.toNat ⟨0, 0, 0, 0⟩)
  else
    ⟨0, 0, 0, 0⟩

/-- Gray value of an `L`-mode image at an in-range coordinate pair. -/
def gval (img : Img) (x y : Nat) : Nat :=
  ((img.px.getD y []).getD x ⟨0, 0, 0, 0⟩).r

/-- Python `int(q)` on a float value: truncation toward zero. -/
def ratTrunc (q : ℚ) : Int :=
  q.num.tdiv (q.den : Int)

/-- Luminance used by Pillow's `convert("L")`:
`(r*19595 + g*38470 + b*7471 + 0x8000) >> 16` (ITU-R 601-2, rounded). -/
def lumaOfPix (p : Pix) : Nat :=
  (p.r * 19595 + p.g * 38470 + p.b * 7471 + 32768) / 65536

/-- Model of `img.convert("L")` / `ImageOps.grayscale`: identity on `L`
images; for `LA` images the stored luminance channel is kept; otherwise
the ITU-R 601-2 luma transform is applied. -/
def grayscaleImg (img : Img) : Img :=
  if img.mode = PilMode.L then img
  else
    ⟨PilMode.L, img.width, img.height,
      img.px.map (fun row => row.map (fun p =>
        if img.mode = PilMode.LA then ⟨p.r, 0, 0, 0⟩ else ⟨lumaOfPix p, 0, 0, 0⟩))⟩

/-- Map a function over the gray channel of an `L`-mode image
(model of PIL `point` / `ImageOps.invert` on single-channel images). -/
def mapGrayImg (img : Img) (f : Nat → Nat) : Img :=
  ⟨PilMode.L, img.width, img.height,
    img.px.map (fun row => row.map (fun p => ⟨f p.r, 0, 0, 0⟩))⟩

/-- Model of `ImageOps.invert` on an `L` image. -/
def invertImg (img : Img) : Img :=
  mapGrayImg img (fun p => 255 - p)

/-- Model of `img.crop((l, t, r, b))`: a `(r-l) × (b-t)` image whose pixel
`(x, y)` is the source pixel `(l+x, t+y)`, zero-filled outside the source
(PIL pads out-of-range crop regions with 0). -/
def cropImg (img : Img) (l t r b : Int) : Img :=
  ⟨img.mode, (r - l).toNat, (b - t).toNat,
    (List.range (b - t).toNat).map (fun y =>
      (List.range (r - l).toNat).map (fun x =>
        pixAt img (l + (x : Int)) (t + (y : Int))))⟩

/-- Count of pixels of an `L` image whose gray value equals `v`
(one bin of PIL `histogram()`). -/
def countGray (img : Img) (v : Nat) : Nat :=
  (img.px.map (fun row => (row.filter (fun p => p.r = v)).length)).sum

/-- Model of PIL `histogram()` on an `L` image: 256 bins. -/
def histogramL (img : Img) : List Nat :=
  (List.range 256).map (fun v => countGray img v)

/-- Low-end cutoff loop of `ImageOps.autocontrast`: remove `cut` samples
from the low end of the histogram, bin by bin. -/
def cutLow : List Nat → Nat → List Nat
  | [], _ => []
  | x :: xs, cut =>
    if cut = 0 then x :: xs
    else if cut > x then 0 :: cutLow xs (cut - x)
    else (x - cut) :: xs

/-- High-end cutoff loop of `ImageOps.autocontrast` (the same walk from
the top bin downward). -/
def cutHigh (h : List Nat) (cut : Nat) : List Nat :=
  (cutLow h.reverse cut).reverse

/-- Index of the first nonzero bin (Python leaves the loop variable at
255 when every bin is zero). -/
def firstNonzeroIdx (h : List Nat) : Nat :=
  min (h.findIdx (fun x => x ≠ 0)) 255

/-- Index of the last nonzero bin (0 when every bin is zero). -/
def lastNonzeroIdx (h : List Nat) : Nat :=
  let k := h.reverse.findIdx (fun x => x ≠ 0)
  if k ≥ h.length then 0 else h.length - 1 - k

/-- The linear remap entry of `ImageOps.autocontrast`:
`max(0, min(255, int((ix - lo) * 255 / (hi - lo))))`. -/
def autocontrastLut (lo hi ix : Nat) : Nat :=
  if ix < lo then 0 else min 255 ((ix - lo) * 255 / (hi - lo))

/-- Model of `ImageOps.autocontrast(img, 1)` on an `L` image: cut 1% of
the samples from each end of the histogram, then linearly stretch the
remaining range to 0..255 (identity when the range is degenerate). -/
def autocontrast1 (img : Img) : Img :=
  let h0 := histogramL img
  let n := h0.sum
  let cut := n / 100
  let h1 := cutHigh (cutLow h0 cut) cut
  let lo := firstNonzeroIdx h1
  let hi := lastNonzeroIdx h1
  if hi ≤ lo then img
  else mapGrayImg img (fun p => autocontrastLut lo hi p)

/-- Fixed-point rounding of Pillow's BoxBlur with radius 1:
`ww = 2^24 / 3 = 5592405`, output `(acc * ww + 2^23) >> 24`. -/
def blurRound (acc : Nat) : Nat :=
  (acc * 5592405 + 8388608) / 16777216

/-- Horizontal pass of BoxBlur radius 1 on one row (edge pixels are
replicated, as in Pillow). -/
def blurRow (row : List Nat) : List Nat :=
  (List.range row.length).map (fun x =>
    let get := fun (i : Nat) => row.getD (min i (row.length - 1)) 0
    let xm := if x = 0 then 0 else x - 1
    blurRound (get xm + get x + get (x + 1)))

/-- Gray values of row `y` of an `L` image. -/
def grayRow (img : Img) (y : Nat) : List Nat :=
  (img.px.getD y []).map (fun p => p.r)

/-- Model of `img.filter(ImageFilter.BoxBlur(1))` on an `L` image:
horizontal 3-tap box pass followed by a vertical one, each with
Pillow's fixed-point rounding and edge replication. -/
def boxBlur1 (img : Img) : Img :=
  let hPassed : List (List Nat) := (List.range img.height).map (fun y => blurRow (grayRow img y))
  let colOf := fun (x y : Nat) => (hPassed.getD y []).getD x 0
  let clampY := fun (y : Nat) => min y (img.height - 1)
  ⟨PilMode.L, img.width, img.height,
    (List.range img.height).map (fun y =>
      (List.range img.width).map (fun x =>
        let ym := if y = 0 then 0 else y - 1
        ⟨blurRound (colOf x (clampY ym) + colOf x (clampY y) + colOf x (clampY (y + 1))), 0, 0, 0⟩))⟩

/-- Model of `detect_background_color` (cropper.py): average the four
corner pixels `(5,5)`, `(w-6,5)`, `(5,h-6)`, `(w-6,h-6)` of the grayscale
image; returns the Python string `"white"` when the average exceeds 128,
else `"black"`.  `getpixel` raises `IndexError` whenever a coordinate is
out of range — i.e. exactly when the image is narrower or shorter than 6
pixels — modelled as `none`. -/
def detect_background_color (img : Img) : Option String :=
  let gray := if img.mode = PilMode.L then img else grayscaleImg img
  let w := gray.width
  let h := gray.height
  if w < 6 ∨ h < 6 then none
  else
    let c1 := gval gray 5 5
    let c2 := gval gray (w - 6) 5
    let c3 := gval gray 5 (h - 6)
    let c4 := gval gray (w - 6) (h - 6)
    if c1 + c2 + c3 + c4 > 512 then some "white" else some "black"

/-- Model of `threshold_from_power` (cropper.py): `int(240 - power*64)`,
computed exactly on the numerator and denominator of `power`
(`240 - 64·(n/d) = (240d - 64n)/d`, truncated toward zero). -/
def threshold_from_power (power : ℚ) : Int :=
  (240 * (power.den : Int) - 64 * power.num).tdiv (power.den : Int)

/-- Fill a rectangular box of an `L` image with gray value 0
(model of `bw_img.paste(im=0, box=box)`). -/
def pasteZero (img : Img) (l t r b : Int) : Img :=
  ⟨img.mode, img.width, img.height,
    (List.range img.height).map (fun (y : Nat) =>
      (List.range img.width).map (fun (x : Nat) =>
        let xi : Int := x
        let yi : Int := y
        if l ≤ xi ∧ xi < r ∧ t ≤ yi ∧ yi < b then ⟨0, 0, 0, 0⟩
        else ⟨gval img x y, 0, 0, 0⟩))⟩

/-- Process one edge strip of `ignore_pixels_near_edge`: when the strip is
non-degenerate and the fraction of 255-pixels inside it is strictly
between 0 and 0.02, the strip is cleared to 0. -/
def ignoreEdgeBox (img : Img) (l t r b : Int) : Img :=
  let edge := cropImg img l t r b
  if edge.height = 0 ∨ edge.width = 0 then img
  else
    let h255 := countGray edge 255
    if 0 < h255 ∧ h255 * 50 < edge.height * edge.width then pasteZero img l t r b
    else img

/-- Model of `ignore_pixels_near_edge` (cropper.py): the four outer 2%
strips are processed in source order (top, bottom, left, right), each on
the image as mutated so far. -/
def ignore_pixels_near_edge (img : Img) : Img :=
  let w := img.width
  let h := img.height
  let hTop : Int := ((h / 50 : Nat) : Int)
  let hBot : Int := ((49 * h / 50 : Nat) : Int)
  let wLeft : Int := ((w / 50 : Nat) : Int)
  let wRight : Int := ((49 * w / 50 : Nat) : Int)
  let i1 := ignoreEdgeBox img 0 0 (w : Int) hTop
  let i2 := ignoreEdgeBox i1 0 hBot (w : Int) (h : Int)
  let i3 := ignoreEdgeBox i2 0 0 wLeft (h : Int)
  ignoreEdgeBox i3 wRight 0 (w : Int) (h : Int)

/-- Model of PIL `getbbox()` on an `L` image: the tight bounding box
`(left, top, right, bottom)` (right/bottom exclusive) of all nonzero
pixels, `none` when the image has none. -/
def getbbox (img : Img) : Option (Int × Int × Int × Int) :=
  let xsOf := fun (y : Nat) => (List.range img.width).filter (fun x => gval img x y ≠ 0)
  let ys := (List.range img.height).filter (fun y => xsOf y ≠ [])
  match ys with
  | [] => none
  | _ =>
    let allXs := ys.flatMap (fun y => xsOf y)
    some ((allXs.foldl min img.width : Nat), (ys.foldl min img.height : Nat),
          ((allXs.foldl max 0) + 1 : Nat), ((ys.foldl max 0) + 1 : Nat))

/-- Shared preprocessing of both croppers (cropper.py lines 96-107 and
147-156) after the background polarity `bg` has been sampled: grayscale
conversion, inversion for dark backgrounds, autocontrast with cutoff 1,
BoxBlur radius 1. -/
def preprocGray (img : Img) (bg : String) : Img :=
  let gray0 := if img.mode = PilMode.L then img else grayscaleImg img
  let gray1 := if bg ≠ "white" then invertImg gray0 else gray0
  boxBlur1 (autocontrast1 gray1)

/-- The binarized image both croppers work on: preprocessed gray mapped
through `255 if p <= threshold else 0`, then edge-noise suppression. -/
def bwOf (img : Img) (bg : String) (power : ℚ) : Img :=
  let t := threshold_from_power power
  ignore_pixels_near_edge
    (mapGrayImg (preprocGray img bg) (fun p => if (p : Int) ≤ t then 255 else 0))

/-- Model of `crop_margins` (cropper.py): no-op for `power ≤ 0`; otherwise
sample the background polarity (`none` models the `IndexError` that
`detect_background_color` raises on images smaller than 6 pixels in
either dimension, which propagates out of `crop_margins`), then crop the
original image to the bounding box of the binarized content, or return
it unchanged when that box is empty. -/
def crop_margins (img : Img) (power : ℚ) : Option Img :=
  if power ≤ 0 then some img
  else
    match detect_background_color img with
    | none => none
    | some bg =>
      match getbbox (bwOf img bg power) with
      | some (l, t, r, b) => some (cropImg img l t r b)
      | none => some img

/-- A candidate mark box `(x0, x1, y0, y1)` as built by the page-number
scan (`x` bounds inclusive, `y` in window-row coordinates, inclusive). -/
structure Box where
  x0 : Int
  x1 : Int
  y0 : Int
  y1 : Int
deriving DecidableEq, Repr

instance : Inhabited Box :=
  ⟨⟨0, 0, 0, 0⟩⟩

/-- Loop state of `group_close_values` (cropper.py): remaining values,
current open group, accumulated groups.  Reproduces the source exactly,
including the quirk that the value which breaks a group is dropped rather
than opening the next group. -/
def gcvGo (tolNum tolDen : Int) : List Int → Option (Int × Int) → List (Int × Int) → List (Int × Int)
  | [], none, acc => acc
  | [], some se, acc => acc ++ [se]
  | v :: rest, none, acc => gcvGo tolNum tolDen rest (some (v, v)) acc
  | v :: rest, some (s, e), acc =>
    if (v - e) * tolDen ≤ tolNum then gcvGo tolNum tolDen rest (some (s, v)) acc
    else gcvGo tolNum tolDen rest none (acc ++ [(s, e)])

/-- Model of `group_close_values` (cropper.py).  The float tolerance
`max_dist_tolerated` is passed as the exact fraction
`tolNum / tolDen` (with `tolDen > 0`): `dist ≤ tol` is decided as
`dist * tolDen ≤ tolNum`. -/
def group_close_values (vals : List Int) (tolNum tolDen : Int) : List (Int × Int) :=
  gcvGo tolNum tolDen vals none []

/-- Model of `box_intersect` (cropper.py): boxes intersect up to the
distance tolerances `d0 = d0num/d0den` (horizontal) and
`d1 = d1num/d1den` (vertical), both denominators positive; each float
comparison is decided by exact cross-multiplication
(e.g. `box2[0] - d0 > box1[1]` becomes
`(box2.x0 - box1.x1) * d0den > d0num`). -/
def box_intersect (b1 b2 : Box) (d0num d0den d1num d1den : Int) : Bool :=
  !(decide ((b2.x0 - b1.x1) * d0den > d0num) ||
    decide ((b1.x0 - b2.x1) * d0den > d0num) ||
    decide ((b2.y0 - b1.y1) * d1den > d1num) ||
    decide ((b1.y0 - b2.y1) * d1den > d1num))

/-- The merged box of `g1` and all boxes intersecting it
(componentwise min/max, as in merge_boxes). -/
def mergedOf (g1 : Box) (inter : List Box) : Box :=
  ⟨(inter.map Box.x0).foldl min g1.x0,
   (inter.map Box.x1).foldl max g1.x1,
   (inter.map Box.y0).foldl min g1.y0,
   (inter.map Box.y1).foldl max g1.y1⟩

/-- The `while j < len(boxes) - 1` loop of `merge_boxes` (cropper.py):
at index `j`, partition the later boxes into those intersecting `boxes[j]`
(`intersecting`, kept in order) and the rest (`other`); on a merge,
restart from index 0 with `boxes[:j] + other + [merged]`. -/
def merge_boxes_go (d0num d0den d1num d1den : Int) (boxes : List Box) (j : Nat) : List Box :=
  if hj : j + 1 < boxes.length then
    if hne : (boxes.drop (j + 1)).filter
        (fun g2 => box_intersect (boxes.getD j default) g2 d0num d0den d1num d1den) ≠ [] then
      merge_boxes_go d0num d0den d1num d1den
        (boxes.take j ++
          (((boxes.drop (j + 1)).filter
              (fun g2 => !box_intersect (boxes.getD j default) g2 d0num d0den d1num d1den)) ++
            [mergedOf (boxes.getD j default)
              ((boxes.drop (j + 1)).filter
                (fun g2 => box_intersect (boxes.getD j default) g2 d0num d0den d1num d1den))]))
        0
    else
      merge_boxes_go d0num d0den d1num d1den boxes (j + 1)
  else boxes
termination_by (boxes.length, boxes.length - j)
decreasing_by
  · apply Prod.Lex.left
    have hp : ((boxes.drop (j + 1)).filter
          (fun g2 => box_intersect (boxes.getD j default) g2 d0num d0den d1num d1den)).length +
        ((boxes.drop (j + 1)).filter
          (fun g2 => !box_intersect (boxes.getD j default) g2 d0num d0den d1num d1den)).length =
        (boxes.drop (j + 1)).length := by
      simpa using
        (List.filter_append_perm
          (fun g2 => box_intersect (boxes.getD j default) g2 d0num d0den d1num d1den)
          (boxes.drop (j + 1))).length_eq
    have hi : 0 < ((boxes.drop (j + 1)).filter
        (fun g2 => box_intersect (boxes.getD j default) g2 d0num d0den d1num d1den)).length :=
      List.length_pos.mpr hne
    have hd : (boxes.drop (j + 1)).length = boxes.length - (j + 1) := by
      simp
    simp only [List.length_append, List.length_take, List.length_cons, List.length_nil]
    omega
  · exact Prod.Lex.right _ (by omega)

/-- Model of `merge_boxes` (cropper.py): repeatedly merge intersecting
boxes until none intersect; tolerances passed as exact fractions as in
`box_intersect`. -/
def merge_boxes (boxes : List Box) (d0num d0den d1num d1den : Int) : List Box :=
  merge_boxes_go d0num d0den d1num d1den boxes 0

/-- Window height of the page-number scan:
`int(img.size[1] * (0.02 * 1.25))` = `⌊height / 40⌋`. -/
def pnWindowH (img : Img) : Int :=
  ((img.height / 40 : Nat) : Int)

/-- Whether a candidate box fits the maximum page-number footprint (the
two size conjuncts of `should_crop` in cropper.py):
`width ≤ img.width * 0.045` is decided exactly as
`1000·width ≤ 45·img.width`, and
`height ≤ max(img.height * 0.02, 3)` as
`50·height ≤ max(img.height, 150)`. -/
def pnFits (img : Img) (b1 : Box) : Prop :=
  1000 * (b1.x1 - b1.x0) ≤ 45 * (img.width : Int) ∧
  50 * (b1.y1 - b1.y0) ≤ max (img.height : Int) 150

instance (img : Img) (b1 : Box) : Decidable (pnFits img b1) :=
  inferInstanceAs (Decidable (And _ _))

/-- The candidate-detection stage of `crop_page_number` (cropper.py lines
144-205): preprocessing, binarization, content bounding box, the bottom
scan window, per-row runs grouped by `group_close_values`, box merging,
footprint filtering, the bottom-row test and the `boxes_in_range`
re-inclusion.  Returns `none` when the corner sampling of
`detect_background_color` raises `IndexError` (image smaller than 6
pixels in either dimension), `some none` on any of the source's early
`return img` exits, and `some (some (bot_y_pos, window_h,
boxes_in_range))` when the source reaches the `should_crop` decision. -/
def pnAnalysis (img : Img) (power : ℚ) : Option (Option (Int × Int × List Box)) :=
  let w := img.width
  let h := img.height
  let t := threshold_from_power power
  match detect_background_color img with
  | none => none
  | some bg =>
    let gray := preprocGray img bg
    let bw := ignore_pixels_near_edge (mapGrayImg gray (fun p => if (p : Int) ≤ t then 255 else 0))
    some (match getbbox bw with
    | none => none
    | some (left, _topY, right, botY) =>
      let whI := pnWindowH img
      if whI ≤ 0 then none
      else
        let imgPart := cropImg gray left (botY - whI) right botY
        let windowGroups := (List.range imgPart.height).flatMap (fun i =>
          let row := grayRow imgPart i
          if row = [] then []
          else
            let indices := ((List.range row.length).filter
              (fun x => decide ((row.getD x 0 : Int) ≤ t))).map (fun (x : Nat) => (x : Int))
            (group_close_values indices (w : Int) 100).map
              (fun g => Box.mk g.1 g.2 (i : Int) (i : Int)))
        if windowGroups = [] then none
        else
          let boxes := merge_boxes windowGroups (w : Int) 100 (h : Int) 500
          let filtered := boxes.filter (fun b1 =>
            decide (1000 * (b1.x1 - b1.x0) ≥ 3 * (w : Int)) &&
            decide (500 * (b1.y1 - b1.y0) ≥ 3 * (h : Int)))
          let lowest := filtered.filter (fun b1 => decide (b1.y1 = whI - 1))
          match lowest with
          | [] => none
          | lb :: lbs =>
            let minY := ((lb :: lbs).map Box.y0).foldl min lb.y0
            let inRange := filtered.filter (fun b1 => decide (b1.y1 ≥ minY))
            some (botY, whI, inRange))

/-- Model of `crop_page_number` (cropper.py): no-op for `power ≤ 0`;
otherwise run the candidate analysis — whose corner sampling raises
`IndexError` (modelled `none`) on images smaller than 6 pixels in either
dimension — and crop strictly above the single surviving candidate when
`should_crop` holds, else return the image unchanged. -/
def crop_page_number (img : Img) (power : ℚ) : Option Img :=
  if power ≤ 0 then some img
  else
    match pnAnalysis img power with
    | none => none
    | some none => some img
    | some (some (botY, whI, inRange)) =>
      match inRange with
      | [b1] =>
        if pnFits img b1 then
          some (cropImg img 0 0 (img.width : Int) (botY - (whI - b1.y0 + 1)))
        else some img
      | _ => some img

/-- Model of `apply_crop` (cropper.py): dispatch on the crop mode string,
no-op for mode `"none"` or `power ≤ 0`; an `IndexError` raised inside
either cropper propagates (`none`). -/
def apply_crop (img : Img) (mode : String) (power : ℚ) : Option Img :=
  if mode = "none" ∨ power ≤ 0 then some img
  else
    match (if mode = "margins" ∨ mode = "margins+page" then crop_margins img power
      else some img) with
    | none => none
    | some result =>
      if mode = "margins+page" then crop_page_number result power else some result

/-- Pillow's MULDIV255 rounding used by alpha compositing:
`t = a*b + 128; ((t >> 8) + t) >> 8`. -/
def mul255 (v m : Nat) : Nat :=
  let t := v * m + 128
  (t / 256 + t) / 256

/-- One channel of pasting a masked source over an opaque white
background: `blend(mask, 255, v)` with Pillow's rounding. -/
def blendWhite1 (v a : Nat) : Nat :=
  mul255 255 (255 - a) + mul255 v a

/-- Model of `background.paste(img, mask=img.split()[-1])` onto a white
RGB background: alpha compositing over white.  `LA` sources are expanded
to RGB (all three channels from the luminance channel) as Pillow does
when pasting onto an RGB image. -/
def flattenWhite (img : Img) : Img :=
  ⟨PilMode.RGB, img.width, img.height,
    img.px.map (fun row => row.map (fun p =>
      if img.mode = PilMode.LA then
        ⟨blendWhite1 p.r p.a, blendWhite1 p.r p.a, blendWhite1 p.r p.a, 255⟩
      else
        ⟨blendWhite1 p.r p.a, blendWhite1 p.g p.a, blendWhite1 p.b p.a, 255⟩))⟩

/-- Model of `img.convert("RGB")`: `L` replicates the gray channel; for
any other mode the stored true-color projection is kept (see the module
comment for the convention on exotic modes). -/
def convertRGB (img : Img) : Img :=
  ⟨PilMode.RGB, img.width, img.height,
    img.px.map (fun row => row.map (fun p =>
      if img.mode = PilMode.L then ⟨p.r, p.r, p.r, 255⟩ else ⟨p.r, p.g, p.b, 255⟩))⟩

/-- Model of `img.convert("RGBA")` on a palette image: in this embedding
a `P` image already stores its palette-resolved RGBA values, so only the
mode changes. -/
def convertRGBAofP (img : Img) : Img :=
  ⟨PilMode.RGBA, img.width, img.height, img.px⟩

/-- The shared alpha/palette flattening block (compressor.py lines
121-129, processor.py lines 94-102, splitter.py lines 47-55): palette
images are first expanded to RGBA, then RGBA/LA images are pasted onto an
opaque white background; the residual `convert("RGB")` branch is dead in
practice but kept for shape. -/
def normalizeAlphaWhite (img : Img) : Img :=
  let img1 := if img.mode = PilMode.P then convertRGBAofP img else img
  if img1.mode = PilMode.RGBA ∨ img1.mode = PilMode.LA then flattenWhite img1
  else convertRGB img1

/-- Color-mode normalization of `compress_image` (compressor.py lines
121-133) and `split_and_compress` (processor.py lines 94-106): flatten
alpha/palette onto white, keep `L` single-channel, force anything else to
RGB. -/
def normalizeCompress (img : Img) : Img :=
  if img.mode = PilMode.RGBA ∨ img.mode = PilMode.P ∨ img.mode = PilMode.LA then
    normalizeAlphaWhite img
  else if img.mode = PilMode.L then img
  else if img.mode ≠ PilMode.RGB then convertRGB img
  else img

/-- Color-mode normalization of `split_double_page` (splitter.py lines
47-57); unlike the compressor path it has no `L` pass-through, so `L`
images are converted to RGB. -/
def normalizeSplitterMode (img : Img) : Img :=
  if img.mode = PilMode.RGBA ∨ img.mode = PilMode.LA ∨ img.mode = PilMode.P then
    normalizeAlphaWhite img
  else if img.mode ≠ PilMode.RGB then convertRGB img
  else img

/-- Abstraction of `np.random.seed(42); np.random.choice(total, count,
replace=False)`: a fixed deterministic list of `count` distinct cell
indices below `total`.  The Mersenne-Twister sequence itself is not
modelled; no verified claim depends on which cells are sampled. -/
def sampleIndices (total count : Nat) : List Nat :=
  (List.range count).map (fun i => i % (max total 1))

/-- Absolute difference of two channel values
(`np.abs(x.astype(int) - y.astype(int))`). -/
def natDiff (x y : Nat) : Nat :=
  max x y - min x y

/-- Model of `is_grayscale_image` (compressor.py): trivially true for `L`
mode, false for any mode other than `RGB`; otherwise sample up to
`sample_size` pixels and test whether more than 92% of them are
near-neutral (`|R-G| < 15` and `|R-B| < 15`). -/
def is_grayscale_image (img : Img) (sample_size : Nat) : Bool :=
  if img.mode = PilMode.L then true
  else if img.mode ≠ PilMode.RGB then false
  else
    let h := img.height
    let w := img.width
    let sample_count := min sample_size (h * w)
    let indices := sampleIndices (h * w) sample_count
    let samples := indices.map (fun idx => pixAt img ((idx % w : Nat) : Int) ((idx / w : Nat) : Int))
    let near := samples.filter (fun p => decide (natDiff p.r p.g < 15) && decide (natDiff p.r p.b < 15))
    decide (25 * near.length > 23 * samples.length)

/-- The bytes-per-pixel step function of `estimate_jpeg_quality`
(compressor.py lines 76-85).  The float comparisons
`bpp < 0.15 / 0.25 / 0.4 / 0.6` with `bpp = len / pixels` are decided by
the exact cross-multiplied comparisons they implement
(`0.15 = 3/20`, `0.25 = 1/4`, `0.4 = 2/5`, `0.6 = 3/5`). -/
def bppBucket (len pixels : Nat) : Int :=
  if 20 * len < 3 * pixels then 60
  else if 4 * len < pixels then 70
  else if 5 * len < 2 * pixels then 80
  else if 5 * len < 3 * pixels then 85
  else 90

/-- Model of `estimate_jpeg_quality` (compressor.py): 80 when the bytes
fail to decode (the `except` path, which also catches the division error
of a zero-pixel image), 95 for non-JPEG containers, otherwise the
bytes-per-pixel step function. -/
def estimate_jpeg_quality (input : RawInput) : Int :=
  match input.decode with
  | none => 80
  | some img =>
    if input.format ≠ some "JPEG" then 95
    else
      let pixels := img.width * img.height
      if pixels = 0 then 80
      else bppBucket input.byteLen pixels

/-- The JPEG save parameters built by both encoders: chroma subsampling
4:2:0 and progressive layout exactly when the image being saved is RGB. -/
def saveParamsFor (img : Img) (q : Int) : SaveParams :=
  ⟨q, decide (img.mode = PilMode.RGB), decide (img.mode = PilMode.RGB)⟩

/-- Model of `compress_image` (compressor.py): quality estimation and
clamping, mode normalization, cropping, grayscale detection/conversion,
and the JPEG encode call, represented by the final image and its
`SaveParams`.  `none` models an exception propagating out of the
function: either the decode failure of `Image.open` or the `IndexError`
that `apply_crop` can raise on sub-6-pixel images. -/
def compress_image (input : RawInput) (quality : Int) (crop_mode : String) (crop_power : ℚ)
    (force_grayscale : Bool) : Option (Img × SaveParams) :=
  let original_quality := estimate_jpeg_quality input
  let actual_quality := max 60 (min quality (original_quality - 5))
  match input.decode with
  | none => none
  | some img0 =>
    let img1 := normalizeCompress img0
    match apply_crop img1 crop_mode crop_power with
    | none => none
    | some img2 =>
      let is_gray := force_grayscale ||
        (decide (img2.mode = PilMode.RGB) && is_grayscale_image img2 2000)
      let img3 := if is_gray && decide (img2.mode = PilMode.RGB) then grayscaleImg img2 else img2
      some (img3, saveParamsFor img3 actual_quality)

/-- Model of `is_wide_image` (processor.py / splitter.py): width strictly
greater than height; false when decoding fails. -/
def is_wide_image (input : RawInput) : Bool :=
  match input.decode with
  | none => false
  | some img => decide (img.height < img.width)

/-- Model of `split_and_compress` (processor.py): estimate-driven quality
with the more conservative `-8` reduction, mode normalization, grayscale
classification once before the split, midpoint split into
(right, left), per-half cropping (the right half first, as in the
source; an `IndexError` from either cropping call propagates),
per-half grayscale conversion, and the two encodes at the shared
quality. -/
def split_and_compress (input : RawInput) (base_quality : Int) (crop_mode : String)
    (crop_power : ℚ) : Option ((Img × SaveParams) × (Img × SaveParams)) :=
  let original_quality := estimate_jpeg_quality input
  let actual_quality := max 60 (min base_quality (original_quality - 8))
  match input.decode with
  | none => none
  | some img0 =>
    let img := normalizeCompress img0
    let is_gray := decide (img.mode = PilMode.L) ||
      (decide (img.mode = PilMode.RGB) && is_grayscale_image img 2000)
    let w := img.width
    let h := img.height
    let mid := w / 2
    let right_half := cropImg img (mid : Int) 0 (w : Int) (h : Int)
    let left_half := cropImg img 0 0 (mid : Int) (h : Int)
    match apply_crop right_half crop_mode crop_power with
    | none => none
    | some right2 =>
      match apply_crop left_half crop_mode crop_power with
      | none => none
      | some left2 =>
        let rightF := if is_gray && decide (right2.mode = PilMode.RGB) then grayscaleImg right2
          else right2
        let leftF := if is_gray && decide (left2.mode = PilMode.RGB) then grayscaleImg left2
          else left2
        some ((rightF, saveParamsFor rightF actual_quality),
          (leftF, saveParamsFor leftF actual_quality))

/-- Model of `process_single_image` (processor.py): covers and non-wide
pages go through `compress_image` (with the caller's crop settings) and
yield one buffer; wide non-covers go through `split_and_compress` and
yield two. -/
def process_single_image (index : Nat) (image_data : RawInput) (is_cover : Bool) (quality : Int)
    (crop_mode : String) (crop_power : ℚ) : Option (Nat × Bool × List (Img × SaveParams) × Nat) :=
  let original_size := image_data.byteLen
  if is_cover || !is_wide_image image_data then
    (compress_image image_data quality crop_mode crop_power false).map
      (fun c => (index, false, [c], original_size))
  else
    (split_and_compress image_data quality crop_mode crop_power).map
      (fun p => (index, true, [p.1, p.2], original_size))

/-- Model of `split_double_page` (splitter.py): normalize to RGB, split at
the midpoint, order the two halves by reading order, and save each at
quality 95 (without subsampling/progressive parameters). -/
def split_double_page (input : RawInput) (reading_order : String) :
    Option ((Img × SaveParams) × (Img × SaveParams)) :=
  match input.decode with
  | none => none
  | some img0 =>
    let img := normalizeSplitterMode img0
    let w := img.width
    let h := img.height
    let mid := w / 2
    let left_half := cropImg img 0 0 (mid : Int) (h : Int)
    let right_half := cropImg img (mid : Int) 0 (w : Int) (h : Int)
    let fs := if reading_order = "rtl" then (right_half, left_half) else (left_half, right_half)
    some ((fs.1, ⟨95, false, false⟩), (fs.2, ⟨95, false, false⟩))

/-- Model of `process_image_for_split` (splitter.py): covers are
compressed with the default crop arguments (`crop_mode='none'`), wide
pages are split, everything else is compressed. -/
def process_image_for_split (image_data : RawInput) (is_cover : Bool) (quality : Int) :
    Option (List (Img × SaveParams)) :=
  if is_cover then
    (compress_image image_data quality "none" 1 false).map (fun c => [c])
  else if is_wide_image image_data then
    (split_double_page image_data "rtl").map (fun p => [p.1, p.2])
  else
    (compress_image image_data quality "none" 1 false).map (fun c => [c])

/-- Model of the `ProcessorStats` accumulator (processor.py). -/
structure ProcessorStats where
  total_files : Nat
  processed_files : Nat
  original_size : Nat
  compressed_size : Nat
  errors : List String
deriving DecidableEq, Repr

/-- Model of the `ProcessorStats.ratio` property (processor.py lines
265-269): 1.0 when no original bytes were counted, otherwise the
compressed/original quotient. -/
def ProcessorStats.ratio (s : ProcessorStats) : ℚ :=
  if s.original_size = 0 then 1
  else (s.compressed_size : ℚ) / (s.original_size : ℚ)

/-- A worker result as stored in the `results` dict of
`_process_images_parallel`: the tuple `(is_double, compressed_list,
original_size)` (the index is the dict key).  `β` abstracts the encoded
JPEG byte buffers. -/
structure PageResult (β : Type) where
  isDouble : Bool
  buffers : List β
  originalSize : Nat
deriving DecidableEq, Repr

/-- One named entry written to the output archive. -/
structure CbzEntry (β : Type) where
  name : String
  data : β
deriving DecidableEq, Repr

/-- The output archive: the storage method flag (`zipfile.ZIP_STORED`)
and the entries in the order they were written. -/
structure CbzFile (β : Type) where
  storedUncompressed : Bool
  entries : List (CbzEntry β)
deriving DecidableEq, Repr

/-- Model of the Python format expression `f"{page:0{num_digits}d}"`. -/
def zeroPad (n digits : Nat) : String :=
  ⟨List.replicate (digits - (Nat.repr n).length) '0' ++ (Nat.repr n).data⟩

/-- Write one task's buffer list as consecutively numbered `.jpg`
entries starting at `page`. -/
def nameBuffers {β : Type} (nd : Nat) : List β → Nat → List (CbzEntry β)
  | [], _ => []
  | b1 :: bs, page => ⟨zeroPad page nd ++ ".jpg", b1⟩ :: nameBuffers nd bs (page + 1)

/-- The write loop of `_write_results_to_cbz`: for each key in sorted
order, write that task's buffers, advancing the running page counter. -/
def writePages {β : Type} (results : List (Nat × PageResult β)) (nd : Nat) :
    List Nat → Nat → List (CbzEntry β)
  | [], _ => []
  | i :: rest, page =>
    nameBuffers nd ((List.lookup i results).getD ⟨false, [], 0⟩).buffers page ++
      writePages results nd rest (page + ((List.lookup i results).getD ⟨false, [], 0⟩).buffers.length)

/-- Model of `TaskProcessor._write_results_to_cbz` (processor.py lines
341-361).  The `results` dict is modelled as an association list keyed by
original task index (list order = completion/insertion order); the write
loop iterates `sorted(results.keys())`, numbering pages from 1,
zero-padding to `len(str(len(results) * 2))` digits, into a
`ZIP_STORED` archive. -/
def write_results_to_cbz {β : Type} (results : List (Nat × PageResult β)) : CbzFile β :=
  let num_digits := (Nat.repr (results.length * 2)).length
  let sortedKeys := List.insertionSort (fun a m => a ≤ m) (results.map Prod.fst)
  ⟨true, writePages results num_digits sortedKeys 1⟩

instance : IsTotal Nat (fun a m => a ≤ m) :=
  ⟨Nat.le_total⟩

instance : IsTrans Nat (fun a m => a ≤ m) :=
  ⟨fun _ _ _ h1 h2 => Nat.le_trans h1 h2⟩

instance : IsAntisymm Nat (fun a m => a ≤ m) :=
  ⟨fun _ _ h1 h2 => Nat.le_antisymm h1 h2⟩

instance {β : Type} : IsTotal (Nat × PageResult β) (fun a m => a.1 ≤ m.1) :=
  ⟨fun a m => Nat.le_total a.1 m.1⟩

instance {β : Type} : IsTrans (Nat × PageResult β) (fun a m => a.1 ≤ m.1) :=
  ⟨fun _ _ _ h1 h2 => Nat.le_trans h1 h2⟩

/-- The geometric contract of the page splitter on a decoded image
(used to state claim C5): the two pages come out in (right, left) order,
the first (right) page is `width - width/2` wide, the second (left) page
`width/2` wide, and the widths sum to the original width; on the
`split_and_compress` path with crop mode `"none"` the same widths reach
the encoder. -/
def splitSpec (input : RawInput) (img : Img) : Prop :=
  ∃ first second,
    split_double_page input "rtl" = some ((first, ⟨95, false, false⟩), (second, ⟨95, false, false⟩)) ∧
    first = cropImg (normalizeSplitterMode img) ((img.width / 2 : Nat) : Int) 0
      (img.width : Int) (img.height : Int) ∧
    second = cropImg (normalizeSplitterMode img) 0 0 ((img.width / 2 : Nat) : Int)
      (img.height : Int) ∧
    first.width = img.width - img.width / 2 ∧
    second.width = img.width / 2 ∧
    first.width + second.width = img.width ∧
    (∀ (q : Int) (power : ℚ),
      (split_and_compress input q "none" power).map (fun p => (p.1.1.width, p.2.1.width)) =
        some (img.width - img.width / 2, img.width / 2))

/-- A 6×6 single-channel white page with a centered 2×2 black block:
margin cropping shrinks it to the 2×2 content box. -/
def wbCover : Img :=
  ⟨PilMode.L, 6, 6,
    (List.range 6).map (fun y =>
      (List.range 6).map (fun x =>
        if 2 ≤ x ∧ x ≤ 3 ∧ 2 ≤ y ∧ y ≤ 3 then ⟨0, 0, 0, 0⟩ else ⟨255, 0, 0, 0⟩))⟩

/-- The `wbCover` page as a decoded input byte string. -/
def coverIn : RawInput :=
  ⟨some wbCover, some "JPEG", 1000⟩

/-- A fully white 6×6 single-channel page (no content at all). -/
def allWhite6 : Img :=
  ⟨PilMode.L, 6, 6, (List.range 6).map (fun _ => (List.range 6).map (fun _ => ⟨255, 0, 0, 0⟩))⟩

/-- A fully white 5×5 single-channel page: too small for the corner
sampling of `detect_background_color`, which raises `IndexError` at
`getpixel((5, 5))` on it. -/
def tiny5 : Img :=
  ⟨PilMode.L, 5, 5, (List.range 5).map (fun _ => (List.range 5).map (fun _ => ⟨255, 0, 0, 0⟩))⟩

/-- A 5×1 wide RGB image (odd width) for the split-width counterexample. -/
def w5img : Img :=
  ⟨PilMode.RGB, 5, 1,
    [[⟨10, 10, 10, 255⟩, ⟨20, 20, 20, 255⟩, ⟨30, 30, 30, 255⟩, ⟨40, 40, 40, 255⟩, ⟨50, 50, 50, 255⟩]]⟩

/-- The `w5img` page as a decoded input. -/
def in5 : RawInput :=
  ⟨some w5img, some "JPEG", 10⟩

/-- A 4×2 wide RGB image (even width) for the split witness. -/
def img4c : Img :=
  ⟨PilMode.RGB, 4, 2,
    [[⟨0, 0, 0, 255⟩, ⟨60, 60, 60, 255⟩, ⟨120, 120, 120, 255⟩, ⟨180, 180, 180, 255⟩],
     [⟨10, 10, 10, 255⟩, ⟨70, 70, 70, 255⟩, ⟨130, 130, 130, 255⟩, ⟨190, 190, 190, 255⟩]]⟩

/-- The `img4c` page as a decoded input. -/
def in4 : RawInput :=
  ⟨some img4c, some "JPEG", 10⟩

/-- A 1×1 single-channel image. -/
def tinyL : Img :=
  ⟨PilMode.L, 1, 1, [[⟨128, 0, 0, 0⟩]]⟩

/-- A decoded JPEG input of 100 bytes over one pixel (high bpp). -/
def jHigh : RawInput :=
  ⟨some tinyL, some "JPEG", 100⟩

/-- A decoded JPEG input of 0 bytes over one pixel (lowest bpp). -/
def jLow : RawInput :=
  ⟨some tinyL, some "JPEG", 0⟩

/-- A decoded non-JPEG input. -/
def pngIn : RawInput :=
  ⟨some tinyL, some "PNG", 100⟩

/-- An input whose bytes fail to decode. -/
def failIn : RawInput :=
  ⟨none, none, 0⟩

/-- A 1×1 RGBA image (an alpha mode that has not been normalized). -/
def rgbaTiny : Img :=
  ⟨PilMode.RGBA, 1, 1, [[⟨1, 2, 3, 4⟩]]⟩

/-- Two-task result set, completion order (1, then 0), task 0 split. -/
def resTwoA : List (Nat × PageResult Nat) :=
  [(1, ⟨false, [10], 5⟩), (0, ⟨true, [20, 30], 7⟩)]

/-- The same result set in the other completion order. -/
def resTwoB : List (Nat × PageResult Nat) :=
  [(0, ⟨true, [20, 30], 7⟩), (1, ⟨false, [10], 5⟩)]

/-- Five unsplit tasks of one page each (so the expanded page count is 5,
a single decimal digit, while the source pads to `len(str(10)) = 2`). -/
def resFive : List (Nat × PageResult Nat) :=
  [(0, ⟨false, [11], 1⟩), (1, ⟨false, [12], 1⟩), (2, ⟨false, [13], 1⟩),
   (3, ⟨false, [14], 1⟩), (4, ⟨false, [15], 1⟩)]

/-! Theorems.  General-purpose lemmas first, then one theorem per claim
(with a witness wherever the claim theorem carries hypotheses). -/

theorem apply_crop_none_eq (img : Img) (power : ℚ) :
    apply_crop img "none" power = some img := by
  unfold apply_crop
  rw [if_pos (Or.inl rfl)]

theorem grayscaleImg_width (img : Img) : (grayscaleImg img).width = img.width := by
  unfold grayscaleImg
  split <;> rfl

theorem grayscaleImg_height (img : Img) : (grayscaleImg img).height = img.height := by
  unfold grayscaleImg
  split <;> rfl

theorem normalizeAlphaWhite_width (img : Img) : (normalizeAlphaWhite img).width = img.width := by
  unfold normalizeAlphaWhite flattenWhite convertRGB convertRGBAofP
  dsimp only
  split_ifs <;> rfl

theorem normalizeSplitterMode_width (img : Img) :
    (normalizeSplitterMode img).width = img.width := by
  unfold normalizeSplitterMode normalizeAlphaWhite flattenWhite convertRGB convertRGBAofP
  dsimp only
  split_ifs <;> rfl

theorem normalizeSplitterMode_height (img : Img) :
    (normalizeSplitterMode img).height = img.height := by
  unfold normalizeSplitterMode normalizeAlphaWhite flattenWhite convertRGB convertRGBAofP
  dsimp only
  split_ifs <;> rfl

theorem normalizeCompress_width (img : Img) : (normalizeCompress img).width = img.width := by
  unfold normalizeCompress normalizeAlphaWhite flattenWhite convertRGB convertRGBAofP
  dsimp only
  split_ifs <;> rfl

theorem cropImg_width (img : Img) (l t r b : Int) :
    (cropImg img l t r b).width = (r - l).toNat :=
  rfl

/-- Claim C1: for every target quality in [60, 95] and every input byte
string, the quality actually passed to the JPEG encoder by
`compress_image` (estimate minus 5) and by `split_and_compress`
(estimate minus 8, both halves sharing one value) lies in
[60, target]. -/
theorem claim_C1 (input : RawInput) (q : Int) (mode : String) (power : ℚ) (fg : Bool)
    (h60 : 60 ≤ q) (h95 : q ≤ 95) :
    (∀ r ∈ compress_image input q mode power fg, 60 ≤ r.2.quality ∧ r.2.quality ≤ q) ∧
    (∀ p ∈ split_and_compress input q mode power,
      (60 ≤ p.1.2.quality ∧ p.1.2.quality ≤ q) ∧ p.2.2.quality = p.1.2.quality) := by
  constructor
  · intro r hr
    unfold compress_image at hr
    cases hdec : input.decode with
    | none => rw [hdec] at hr; simp at hr
    | some img0 =>
      rw [hdec] at hr
      dsimp only at hr
      cases hcrop : apply_crop (normalizeCompress img0) mode power with
      | none => rw [hcrop] at hr; simp at hr
      | some img2 =>
        rw [hcrop] at hr
        simp only [Option.mem_def, Option.some_inj] at hr
        subst hr
        dsimp [saveParamsFor]
        omega
  · intro p hp
    unfold split_and_compress at hp
    cases hdec : input.decode with
    | none => rw [hdec] at hp; simp at hp
    | some img0 =>
      rw [hdec] at hp
      dsimp only at hp
      cases hcrop1 : apply_crop
          (cropImg (normalizeCompress img0) ((normalizeCompress img0).width / 2 : Nat) 0
            ((normalizeCompress img0).width : Int) ((normalizeCompress img0).height : Int))
          mode power with
      | none => rw [hcrop1] at hp; simp at hp
      | some right2 =>
        rw [hcrop1] at hp
        cases hcrop2 : apply_crop
            (cropImg (normalizeCompress img0) 0 0 ((normalizeCompress img0).width / 2 : Nat)
              ((normalizeCompress img0).height : Int))
            mode power with
        | none => rw [hcrop2] at hp; simp at hp
        | some left2 =>
          rw [hcrop2] at hp
          simp only [Option.mem_def, Option.some_inj] at hp
          subst hp
          dsimp [saveParamsFor]
          omega

/-- Witness for C1 at a concrete decoded JPEG input and target 72. -/
theorem claim_C1_witness :
    (60 : Int) ≤ 72 ∧ (72 : Int) ≤ 95 ∧
    (compress_image jHigh 72 "none" 1 false).map (fun r => r.2.quality) = some 72 ∧
    (split_and_compress jHigh 72 "none" 1).map (fun p => p.1.2.quality) = some 72 ∧
    (∀ r ∈ compress_image jHigh 72 "none" 1 false, 60 ≤ r.2.quality ∧ r.2.quality ≤ 72) :=
  ⟨by decide, by decide, by decide, by decide,
    (claim_C1 jHigh 72 "none" 1 false (by decide) (by decide)).1⟩

/-- Claim C6: for every image and every crop power ≤ 0, `crop_margins`,
`crop_page_number` and `apply_crop` all return the input unchanged, for
every crop mode (`= some img`: the guard fires before any other work,
so no exception can be raised either). -/
theorem claim_C6 (img : Img) (power : ℚ) (mode : String) (hp : power ≤ 0) :
    crop_margins img power = some img ∧ crop_page_number img power = some img ∧
    apply_crop img mode power = some img := by
  refine ⟨?_, ?_, ?_⟩
  · unfold crop_margins
    rw [if_pos hp]
  · unfold crop_page_number
    rw [if_pos hp]
  · unfold apply_crop
    rw [if_pos (Or.inr hp)]

/-- Witness for C6 at power 0 on a concrete image and mode. -/
theorem claim_C6_witness :
    crop_margins wbCover 0 = some wbCover ∧ crop_page_number wbCover 0 = some wbCover ∧
    apply_crop wbCover "margins+page" 0 = some wbCover :=
  claim_C6 wbCover 0 "margins+page" (by decide)

/-- Claim C9: the `ProcessorStats.ratio` property is total: it is 1 when
`original_size = 0` and otherwise the exact compressed/original quotient
(so the division never has a zero divisor). -/
theorem claim_C9 (s : ProcessorStats) :
    (s.original_size = 0 → s.ratio = 1) ∧
    (s.original_size ≠ 0 → s.ratio * (s.original_size : ℚ) = (s.compressed_size : ℚ)) := by
  constructor
  · intro h0
    unfold ProcessorStats.ratio
    rw [if_pos h0]
  · intro hne
    unfold ProcessorStats.ratio
    rw [if_neg hne]
    have hq : ((s.original_size : ℚ)) ≠ 0 := by
      exact_mod_cast hne
    field_simp

/-- Witness for C9 in both the zero and nonzero divisor cases. -/
theorem claim_C9_witness :
    ProcessorStats.ratio ⟨0, 0, 0, 0, []⟩ = 1 ∧
    ProcessorStats.ratio ⟨0, 0, 2, 1, []⟩ * ((2 : Nat) : ℚ) = ((1 : Nat) : ℚ) :=
  ⟨(claim_C9 ⟨0, 0, 0, 0, []⟩).1 rfl, (claim_C9 ⟨0, 0, 2, 1, []⟩).2 (by decide)⟩

/-- Claim C10: for every image whose mode is neither `L` nor `RGB`,
`is_grayscale_image` returns false, and it does so without sampling any
pixels: the result does not depend on the pixel grid at all. -/
theorem claim_C10 (mode : PilMode) (w h : Nat) (px1 px2 : List (List Pix)) (n : Nat)
    (hL : mode ≠ PilMode.L) (hRGB : mode ≠ PilMode.RGB) :
    is_grayscale_image ⟨mode, w, h, px1⟩ n = false ∧
    is_grayscale_image ⟨mode, w, h, px1⟩ n = is_grayscale_image ⟨mode, w, h, px2⟩ n := by
  constructor
  · unfold is_grayscale_image
    rw [if_neg hL, if_pos hRGB]
  · unfold is_grayscale_image
    rw [if_neg hL, if_pos hRGB, if_neg hL, if_pos hRGB]

/-- Witness for C10 at a concrete RGBA image. -/
theorem claim_C10_witness :
    is_grayscale_image rgbaTiny 2000 = false :=
  (claim_C10 PilMode.RGBA 1 1 rgbaTiny.px [] 2000 (by decide) (by decide)).1

/-- Monotonicity engine for C8: if one JPEG input has bytes-per-pixel at
most another's (compared exactly as `l1/p1 ≤ l2/p2`, i.e.
`l1·p2 ≤ l2·p1`), its estimated quality bucket is no higher. -/
theorem bppBucket_mono {l1 p1 l2 p2 : Nat} (hp1 : 0 < p1) (_hp2 : 0 < p2)
    (h : l1 * p2 ≤ l2 * p1) : bppBucket l1 p1 ≤ bppBucket l2 p2 := by
  have key : ∀ a b : Nat, a * l2 < b * p2 → a * l1 < b * p1 := by
    intro a b hl
    by_contra hnot
    push_neg at hnot
    have k4 : a * (l2 * p1) < a * (l1 * p2) := by
      calc a * (l2 * p1) = a * l2 * p1 := by ring
        _ < b * p2 * p1 := mul_lt_mul_of_pos_right hl hp1
        _ = b * p1 * p2 := by ring
        _ ≤ a * l1 * p2 := mul_le_mul_of_nonneg_right hnot (Nat.zero_le _)
        _ = a * (l1 * p2) := by ring
    have k6 : l2 * p1 < l1 * p2 := lt_of_mul_lt_mul_left k4 (Nat.zero_le a)
    exact absurd k6 (Nat.not_lt.mpr h)
  have key2 : 4 * l2 < p2 → 4 * l1 < p1 := by
    intro hl
    have hk := key 4 1 (by simpa using hl)
    simpa using hk
  unfold bppBucket
  split_ifs <;>
    first
      | decide
      | (exact absurd (key 20 3 (by assumption)) (by assumption))
      | (exact absurd (key2 (by assumption)) (by assumption))
      | (exact absurd (key 5 2 (by assumption)) (by assumption))
      | (exact absurd (key 5 3 (by assumption)) (by assumption))

/-- Claim C8: `estimate_jpeg_quality` returns 95 for decodable non-JPEG
inputs, 80 on decode failure, and otherwise a value in
{60, 70, 80, 85, 90} given by a step function of bytes-per-pixel that is
monotonically non-decreasing in bytes-per-pixel. -/
theorem claim_C8 (in1 : RawInput) :
    (in1.decode = none → estimate_jpeg_quality in1 = 80) ∧
    (∀ img1, in1.decode = some img1 → in1.format ≠ some "JPEG" →
      estimate_jpeg_quality in1 = 95) ∧
    (∀ img1, in1.decode = some img1 → in1.format = some "JPEG" →
      0 < img1.width * img1.height →
      estimate_jpeg_quality in1 ∈ ([60, 70, 80, 85, 90] : List Int)) ∧
    (∀ (in2 : RawInput) (img1 img2 : Img), in1.decode = some img1 → in2.decode = some img2 →
      in1.format = some "JPEG" → in2.format = some "JPEG" →
      0 < img1.width * img1.height → 0 < img2.width * img2.height →
      in1.byteLen * (img2.width * img2.height) ≤ in2.byteLen * (img1.width * img1.height) →
      estimate_jpeg_quality in1 ≤ estimate_jpeg_quality in2) := by
  refine ⟨?_, ?_, ?_, ?_⟩
  · intro h
    unfold estimate_jpeg_quality
    rw [h]
  · intro img1 hdec hfmt
    unfold estimate_jpeg_quality
    rw [hdec]
    simp [hfmt]
  · intro img1 hdec hfmt hpos
    unfold estimate_jpeg_quality
    rw [hdec]
    dsimp only
    rw [if_neg (by simp [hfmt])]
    show (if img1.width * img1.height = 0 then (80 : Int)
      else bppBucket in1.byteLen (img1.width * img1.height)) ∈ ([60, 70, 80, 85, 90] : List Int)
    rw [if_neg (by omega)]
    unfold bppBucket
    split_ifs <;> decide
  · intro in2 img1 img2 hdec1 hdec2 hfmt1 hfmt2 hpos1 hpos2 hbpp
    unfold estimate_jpeg_quality
    rw [hdec1, hdec2]
    dsimp only
    rw [if_neg (show ¬(in1.format ≠ some "JPEG") from by simp [hfmt1])]
    rw [if_neg (show ¬(in2.format ≠ some "JPEG") from by simp [hfmt2])]
    show (if img1.width * img1.height = 0 then (80 : Int)
        else bppBucket in1.byteLen (img1.width * img1.height)) ≤
      (if img2.width * img2.height = 0 then (80 : Int)
        else bppBucket in2.byteLen (img2.width * img2.height))
    rw [if_neg (show ¬(img1.width * img1.height = 0) from by omega)]
    rw [if_neg (show ¬(img2.width * img2.height = 0) from by omega)]
    exact bppBucket_mono hpos1 hpos2 hbpp

/-- Witness for C8: all four behaviors at concrete inputs. -/
theorem claim_C8_witness :
    estimate_jpeg_quality failIn = 80 ∧
    estimate_jpeg_quality pngIn = 95 ∧
    estimate_jpeg_quality jHigh ∈ ([60, 70, 80, 85, 90] : List Int) ∧
    estimate_jpeg_quality jLow ≤ estimate_jpeg_quality jHigh :=
  ⟨(claim_C8 failIn).1 rfl,
   (claim_C8 pngIn).2.1 tinyL rfl (by decide),
   (claim_C8 jHigh).2.2.1 tinyL rfl rfl (by decide),
   (claim_C8 jLow).2.2.2 jHigh tinyL tinyL rfl rfl rfl rfl (by decide) (by decide) (by decide)⟩

set_option maxRecDepth 1000000

set_option maxHeartbeats 4000000

/-- Claim C2 (amended): a cover task is never split — `process_single_image`
always yields `expanded = false` and exactly one output buffer for it,
namely the `compress_image` result computed with the caller's crop mode
and power, so margin/page-number cropping IS applied to covers on the
pipeline path; only the splitter-module path `process_image_for_split`
compresses covers with crop mode `"none"` (no cropping). -/
theorem claim_C2 (idx : Nat) (input : RawInput) (q : Int) (mode : String) (power : ℚ) :
    process_single_image idx input true q mode power =
      (compress_image input q mode power false).map (fun c => (idx, false, [c], input.byteLen)) ∧
    (∀ r ∈ process_single_image idx input true q mode power,
      r.2.1 = false ∧ r.2.2.1.length = 1) ∧
    process_image_for_split input true q =
      (compress_image input q "none" 1 false).map (fun c => [c]) := by
  refine ⟨?_, ?_, ?_⟩
  · unfold process_single_image
    simp
  · intro r hr
    unfold process_single_image at hr
    simp only [Bool.true_or, if_true] at hr
    cases hc : compress_image input q mode power false with
    | none => rw [hc] at hr; simp at hr
    | some c =>
      rw [Option.mem_def, hc, Option.map_some', Option.some_inj] at hr
      subst hr
      exact ⟨rfl, rfl⟩
  · unfold process_image_for_split
    simp

/-- Counterexample to C2 as stated: a concrete 6×6 cover page processed
with crop mode `"margins"` and power 1 comes out of the pipeline cropped
to its 2×2 content box — so the pipeline does crop covers. -/
theorem claim_C2_counterexample :
    process_single_image 0 coverIn true 72 "margins" 1 ≠
      process_single_image 0 coverIn true 72 "none" 1 ∧
    (process_single_image 0 coverIn true 72 "margins" 1).map
      (fun r => r.2.2.1.map (fun c => (c.1.width, c.1.height))) = some [(2, 2)] ∧
    coverIn.decode.map (fun i => (i.width, i.height)) = some (6, 6) :=
  ⟨by decide, by decide, by decide⟩

/-- Witness for C2 at a concrete cover task: one buffer, not expanded. -/
theorem claim_C2_witness :
    ((0, false, [(wbCover, (⟨72, false, false⟩ : SaveParams))], 1000) :
        Nat × Bool × List (Img × SaveParams) × Nat).2.1 = false ∧
    ((0, false, [(wbCover, (⟨72, false, false⟩ : SaveParams))], 1000) :
        Nat × Bool × List (Img × SaveParams) × Nat).2.2.1.length = 1 :=
  (claim_C2 0 coverIn 72 "none" 1).2.1 _ (Option.mem_def.mpr (by decide))

/-- Width of the grayscale-or-not conditional used on each split half. -/
theorem ifGray_width (c : Bool) (i : Img) :
    (if c = true then grayscaleImg i else i).width = i.width := by
  cases c
  · simp
  · simp [grayscaleImg_width]

/-- Claim C5 (amended): for a wide image the splitter produces exactly two
pages in the order (right half, left half); the FIRST (right) page is
`W - W/2` wide and the SECOND (left) page `W/2` wide (not the other way
around, as the original claim said), and the widths always sum to `W`;
the `split_and_compress` path delivers the same widths. -/
theorem claim_C5 (input : RawInput) (img : Img) (hdec : input.decode = some img)
    (hwide : img.height < img.width) : splitSpec input img := by
  unfold splitSpec split_double_page
  rw [hdec]
  dsimp only
  rw [if_pos rfl]
  refine ⟨_, _, rfl, ?_, ?_, ?_, ?_, ?_, ?_⟩
  · rw [normalizeSplitterMode_width, normalizeSplitterMode_height]
  · rw [normalizeSplitterMode_width, normalizeSplitterMode_height]
  · rw [cropImg_width, normalizeSplitterMode_width]
    omega
  · rw [cropImg_width, normalizeSplitterMode_width]
    omega
  · rw [cropImg_width, cropImg_width, normalizeSplitterMode_width]
    omega
  · intro q power
    unfold split_and_compress
    rw [hdec]
    dsimp only
    rw [apply_crop_none_eq, apply_crop_none_eq]
    dsimp only
    rw [Option.map_some']
    congr 1
    rw [ifGray_width, ifGray_width, cropImg_width, cropImg_width,
      normalizeCompress_width]
    congr 1
    omega

/-- Counterexample to C5 as stated: on a 5×1 wide image the FIRST
produced page (the right half) is 3 = `5 - 5/2` pixels wide, not
`5/2 = 2` as the claim assigns to the first page. -/
theorem claim_C5_counterexample :
    in5.decode.map (fun i => (i.width, i.height)) = some (5, 1) ∧
    (split_double_page in5 "rtl").map (fun p => (p.1.1.width, p.2.1.width)) = some (3, 2) ∧
    ¬((3 : Nat) = 5 / 2) :=
  ⟨by decide, by decide, by decide⟩

/-- Witness for C5 on a concrete 4×2 wide image. -/
theorem claim_C5_witness : splitSpec in4 img4c :=
  claim_C5 in4 img4c rfl (by decide)

/-- Claim C7 (amended): with positive power, on any image at least 6
pixels wide and tall the page-number cropper crops exactly when the
candidate analysis yields a single box in range whose width and height
fit the maximum footprint, and then it crops strictly above the mark
(`crop_y` is strictly above the candidate's top edge
`bot_y_pos - window_h + y0`); with zero candidates (any early exit) or
two or more candidates in range the image is returned unchanged.  On any
smaller image, however, the background-polarity corner sampling raises
`IndexError` instead of returning the image — the first conjunct
characterizes that error case exactly. -/
theorem claim_C7 (img : Img) (power : ℚ) (hpow : 0 < power) :
    (pnAnalysis img power = none ↔ img.width < 6 ∨ img.height < 6) ∧
    (pnAnalysis img power = none → crop_page_number img power = none) ∧
    (∀ st, pnAnalysis img power = some st →
      (st = none → crop_page_number img power = some img) ∧
      (∀ botY whI cands, st = some (botY, whI, cands) →
        (cands.length ≠ 1 → crop_page_number img power = some img) ∧
        (∀ b1, cands = [b1] →
          (pnFits img b1 →
            crop_page_number img power =
              some (cropImg img 0 0 (img.width : Int) (botY - (whI - b1.y0 + 1))) ∧
            botY - (whI - b1.y0 + 1) < botY - whI + b1.y0) ∧
          (¬pnFits img b1 → crop_page_number img power = some img)))) := by
  have hng : ¬(power ≤ 0) := not_le.mpr hpow
  refine ⟨?_, ?_, ?_⟩
  · unfold pnAnalysis detect_background_color
    have hw : (if img.mode = PilMode.L then img else grayscaleImg img).width = img.width := by
      split
      · rfl
      · exact grayscaleImg_width img
    have hh : (if img.mode = PilMode.L then img else grayscaleImg img).height = img.height := by
      split
      · rfl
      · exact grayscaleImg_height img
    dsimp only
    rw [hw, hh]
    by_cases hc : img.width < 6 ∨ img.height < 6
    · rw [if_pos hc]
      simp [hc]
    · rw [if_neg hc]
      split
      · rename_i heq
        rcases ite_eq_iff.mp heq with ⟨_, h2⟩ | ⟨_, h2⟩ <;> simp at h2
      · simp [hc]
  · intro hA
    unfold crop_page_number
    rw [if_neg hng, hA]
  · intro st hA
    constructor
    · intro hst
      subst hst
      unfold crop_page_number
      rw [if_neg hng, hA]
    · intro botY whI cands hst
      subst hst
      constructor
      · intro hlen
        unfold crop_page_number
        rw [if_neg hng, hA]
        rcases cands with _ | ⟨c, _ | ⟨d, rest⟩⟩
        · rfl
        · exact absurd rfl hlen
        · rfl
      · intro b1 hc2
        subst hc2
        constructor
        · intro hfits
          refine ⟨?_, by omega⟩
          unfold crop_page_number
          rw [if_neg hng, hA]
          dsimp only
          rw [if_pos hfits]
        · intro hnf
          unfold crop_page_number
          rw [if_neg hng, hA]
          dsimp only
          rw [if_neg hnf]

/-- Counterexample to C7 as stated: on a concrete 5×5 page with positive
power there are no candidate marks at all, yet `crop_page_number` does
not return the image unchanged — the corner sampling of
`detect_background_color` raises `IndexError` (modelled as `none`),
which propagates out of the cropper. -/
theorem claim_C7_counterexample :
    (0 : ℚ) < 1 ∧ crop_page_number tiny5 1 = none ∧
    crop_page_number tiny5 1 ≠ some tiny5 :=
  ⟨by decide, by decide, by decide⟩

/-- Witness for C7: the blank 6×6 page takes an early exit and is
returned unchanged, while the 5×5 page hits the `IndexError` path. -/
theorem claim_C7_witness :
    pnAnalysis allWhite6 1 = some none ∧ crop_page_number allWhite6 1 = some allWhite6 ∧
    crop_page_number tiny5 1 = none :=
  ⟨by decide, ((claim_C7 allWhite6 1 (by decide)).2.2 none (by decide)).1 rfl,
    (claim_C7 tiny5 1 (by decide)).2.1 (by decide)⟩

theorem nameBuffers_data {β : Type} (nd : Nat) (bufs : List β) (page : Nat) :
    (nameBuffers nd bufs page).map (fun e => e.data) = bufs := by
  induction bufs generalizing page with
  | nil => rfl
  | cons x xs ih => simp [nameBuffers, ih]

theorem nameBuffers_names {β : Type} (nd : Nat) (bufs : List β) (page : Nat) :
    (nameBuffers nd bufs page).map (fun e => e.name) =
      (List.range' page bufs.length).map (fun p => zeroPad p nd ++ ".jpg") := by
  induction bufs generalizing page with
  | nil => rfl
  | cons x xs ih => simp [nameBuffers, List.range'_succ, ih]

theorem writePages_congr {β : Type} (r1 r2 : List (Nat × PageResult β)) (nd : Nat)
    (hl : ∀ i, List.lookup i r1 = List.lookup i r2) :
    ∀ S page, writePages r1 nd S page = writePages r2 nd S page := by
  intro S
  induction S with
  | nil => intro page; rfl
  | cons i rest ih =>
    intro page
    simp only [writePages, hl i, ih]

theorem writePages_data {β : Type} (res : List (Nat × PageResult β)) (nd : Nat) :
    ∀ S page, (writePages res nd S page).map (fun e => e.data) =
      S.flatMap (fun i => ((List.lookup i res).getD ⟨false, [], 0⟩).buffers) := by
  intro S
  induction S with
  | nil => intro page; rfl
  | cons i rest ih =>
    intro page
    simp only [writePages, List.map_append, nameBuffers_data, ih, List.flatMap_cons]

theorem writePages_names {β : Type} (res : List (Nat × PageResult β)) (nd : Nat) :
    ∀ S page, (writePages res nd S page).map (fun e => e.name) =
      (List.range' page
          ((S.map (fun i => ((List.lookup i res).getD ⟨false, [], 0⟩).buffers.length)).sum)).map
        (fun p => zeroPad p nd ++ ".jpg") := by
  intro S
  induction S with
  | nil => intro page; rfl
  | cons i rest ih =>
    intro page
    have happend := List.range'_append page
      ((List.lookup i res).getD ⟨false, [], 0⟩).buffers.length
      ((rest.map (fun j => ((List.lookup j res).getD ⟨false, [], 0⟩).buffers.length)).sum) 1
    simp only [writePages, List.map_append, nameBuffers_names, ih, List.map_cons, List.sum_cons]
    rw [← List.map_append, one_mul] at *
    rw [Nat.add_comm (((List.lookup i res).getD ⟨false, [], 0⟩).buffers.length)]
    rw [← happend, List.map_append]

theorem lookup_eq_some_of_mem {β : Type} :
    ∀ {l : List (Nat × PageResult β)} {i : Nat} {v : PageResult β},
    (l.map Prod.fst).Nodup → (i, v) ∈ l → List.lookup i l = some v := by
  intro l
  induction l with
  | nil => intro i v _ hm; simp at hm
  | cons hd t ih =>
    intro i v hnd hm
    obtain ⟨a, w⟩ := hd
    have hnd' : (a :: t.map Prod.fst).Nodup := by simpa using hnd
    obtain ⟨hnotin, hndt⟩ := List.nodup_cons.mp hnd'
    rcases List.mem_cons.mp hm with heq | hmem
    · injection heq with h1 h2
      subst h1
      subst h2
      simp [List.lookup_cons]
    · have hkey : i ∈ t.map Prod.fst := List.mem_map_of_mem Prod.fst hmem
      have hne : (i == a) = false := by
        apply beq_false_of_ne
        intro hcontra
        exact hnotin (hcontra ▸ hkey)
      rw [List.lookup_cons, hne]
      exact ih (by simpa using hndt) hmem

theorem mem_of_lookup_some {β : Type} :
    ∀ {l : List (Nat × PageResult β)} {i : Nat} {v : PageResult β},
    List.lookup i l = some v → (i, v) ∈ l := by
  intro l
  induction l with
  | nil => intro i v h; simp [List.lookup] at h
  | cons hd t ih =>
    intro i v h
    obtain ⟨a, w⟩ := hd
    rw [List.lookup_cons] at h
    cases hia : (i == a) with
    | true =>
      rw [hia] at h
      injection h with h'
      subst h'
      have : i = a := by simpa using hia
      subst this
      exact List.mem_cons_self ..
    | false =>
      rw [hia] at h
      exact List.mem_cons_of_mem _ (ih h)

theorem lookup_perm_eq {β : Type} {r1 r2 : List (Nat × PageResult β)} (hperm : r1.Perm r2)
    (hnd : (r1.map Prod.fst).Nodup) : ∀ i, List.lookup i r1 = List.lookup i r2 := by
  have hnd2 : (r2.map Prod.fst).Nodup := (hperm.map Prod.fst).nodup_iff.mp hnd
  intro i
  cases h1 : List.lookup i r1 with
  | some v =>
    exact (lookup_eq_some_of_mem hnd2 (hperm.subset (mem_of_lookup_some h1))).symm
  | none =>
    cases h2 : List.lookup i r2 with
    | none => rfl
    | some w =>
      have : List.lookup i r1 = some w :=
        lookup_eq_some_of_mem hnd (hperm.symm.subset (mem_of_lookup_some h2))
      rw [h1] at this
      exact absurd this (by simp)

theorem nat_sorted_unique {l1 l2 : List Nat} (hp : l1.Perm l2)
    (h1 : List.Sorted (fun a m => a ≤ m) l1) (h2 : List.Sorted (fun a m => a ≤ m) l2) :
    l1 = l2 :=
  @List.eq_of_perm_of_sorted Nat (fun a m => a ≤ m) inferInstance l1 l2 hp h1 h2

theorem sortPairs_map_fst {β : Type} (res : List (Nat × PageResult β)) :
    (List.insertionSort (fun a m => a.1 ≤ m.1) res).map Prod.fst =
      List.insertionSort (fun a m => a ≤ m) (res.map Prod.fst) := by
  apply nat_sorted_unique
  · exact ((List.perm_insertionSort _ res).map Prod.fst).trans
      (List.perm_insertionSort _ _).symm
  · have hs : List.Sorted (fun (a m : Nat × PageResult β) => a.1 ≤ m.1)
        (List.insertionSort (fun a m => a.1 ≤ m.1) res) :=
      List.sorted_insertionSort (fun a m => a.1 ≤ m.1) res
    exact List.Pairwise.map Prod.fst (fun a m h => h) hs
  · exact List.sorted_insertionSort _ _

theorem sortedKeys_map_getD {β : Type} (res : List (Nat × PageResult β))
    (hnd : (res.map Prod.fst).Nodup) :
    (List.insertionSort (fun a m => a ≤ m) (res.map Prod.fst)).map
        (fun i => (List.lookup i res).getD ⟨false, [], 0⟩) =
      (List.insertionSort (fun a m => a.1 ≤ m.1) res).map Prod.snd := by
  rw [← sortPairs_map_fst, List.map_map]
  apply List.map_congr_left
  intro p hp
  have hmem : p ∈ res := (List.perm_insertionSort _ res).subset hp
  have hl : List.lookup p.1 res = some p.2 := lookup_eq_some_of_mem hnd (by simpa using hmem)
  simp [Function.comp, hl]

/-- Claim C3: archive assembly is completion-order independent — for any
two completion orders (permutations) of the same per-task results, the
written archive is identical — and the buffer sequence it writes equals
the tasks' buffers concatenated in ascending task-index order. -/
theorem claim_C3 {β : Type} (res1 res2 : List (Nat × PageResult β))
    (hnd : (res1.map Prod.fst).Nodup) (hperm : res1.Perm res2) :
    write_results_to_cbz res1 = write_results_to_cbz res2 ∧
    (write_results_to_cbz res1).entries.map (fun e => e.data) =
      (List.insertionSort (fun a m => a.1 ≤ m.1) res1).flatMap (fun p => p.2.buffers) := by
  constructor
  · unfold write_results_to_cbz
    have hlen : res1.length = res2.length := hperm.length_eq
    have hkeys : List.insertionSort (fun a m => a ≤ m) (res1.map Prod.fst) =
        List.insertionSort (fun a m => a ≤ m) (res2.map Prod.fst) := by
      apply nat_sorted_unique
      · exact (List.perm_insertionSort _ _).trans
          ((hperm.map Prod.fst).trans (List.perm_insertionSort _ _).symm)
      · exact List.sorted_insertionSort _ _
      · exact List.sorted_insertionSort _ _
    rw [hlen, hkeys]
    exact congrArg (CbzFile.mk true)
      (writePages_congr res1 res2 _ (lookup_perm_eq hperm hnd) _ _)
  · unfold write_results_to_cbz
    dsimp only
    rw [writePages_data]
    calc (List.insertionSort (fun a m => a ≤ m) (res1.map Prod.fst)).flatMap
          (fun i => ((List.lookup i res1).getD ⟨false, [], 0⟩).buffers)
        = ((List.insertionSort (fun a m => a ≤ m) (res1.map Prod.fst)).map
            (fun i => (List.lookup i res1).getD ⟨false, [], 0⟩)).flatMap
              (fun v => v.buffers) := by
          rw [List.flatMap_map]
      _ = ((List.insertionSort (fun a m => a.1 ≤ m.1) res1).map Prod.snd).flatMap
            (fun v => v.buffers) := by
          rw [sortedKeys_map_getD res1 hnd]
      _ = (List.insertionSort (fun a m => a.1 ≤ m.1) res1).flatMap
            (fun p => p.2.buffers) := by
          rw [List.flatMap_map]

/-- Witness for C3 at two concrete completion orders of two tasks. -/
theorem claim_C3_witness :
    (resTwoA.map Prod.fst).Nodup ∧ resTwoA.Perm resTwoB ∧
    write_results_to_cbz resTwoA = write_results_to_cbz resTwoB ∧
    (write_results_to_cbz resTwoA).entries.map (fun e => e.data) = [20, 30, 10] :=
  ⟨by decide, by decide, (claim_C3 resTwoA resTwoB (by decide) (by decide)).1, by decide⟩

/-- Claim C4 (amended): entries are numbered from 1 with a fixed `.jpg`
extension into a `ZIP_STORED` archive, but the zero-pad width is the
decimal length of TWICE THE TASK COUNT (`len(str(len(results) * 2))`),
not of the exact expanded page count as the original claim said. -/
theorem claim_C4 {β : Type} (res : List (Nat × PageResult β))
    (hnd : (res.map Prod.fst).Nodup) :
    (write_results_to_cbz res).storedUncompressed = true ∧
    (write_results_to_cbz res).entries.map (fun e => e.name) =
      (List.range' 1 ((res.map (fun p => p.2.buffers.length)).sum)).map
        (fun page => zeroPad page ((Nat.repr (res.length * 2)).length) ++ ".jpg") := by
  constructor
  · rfl
  · unfold write_results_to_cbz
    dsimp only
    rw [writePages_names]
    have hsum : ((List.insertionSort (fun a m => a ≤ m) (res.map Prod.fst)).map
        (fun i => ((List.lookup i res).getD ⟨false, [], 0⟩).buffers.length)).sum =
        ((res.map (fun p => p.2.buffers.length)).sum) := by
      have h1 : (List.insertionSort (fun a m => a ≤ m) (res.map Prod.fst)).map
          (fun i => ((List.lookup i res).getD ⟨false, [], 0⟩).buffers.length) =
          ((List.insertionSort (fun a m => a.1 ≤ m.1) res).map Prod.snd).map
            (fun v => v.buffers.length) := by
        rw [← sortedKeys_map_getD res hnd, List.map_map]
        rfl
      rw [h1, List.map_map]
      exact ((List.perm_insertionSort (fun a m => a.1 ≤ m.1) res).map
        ((fun v => v.buffers.length) ∘ Prod.snd)).sum_eq
    rw [hsum]

/-- Counterexample to C4 as stated: five unsplit one-page tasks produce
five pages, whose count needs one decimal digit, yet the code pads to
`len(str(5 * 2)) = 2` digits: the first entry is "01.jpg", not the
"1.jpg" the claimed padding rule would give. -/
theorem claim_C4_counterexample :
    (write_results_to_cbz resFive).entries.map (fun e => e.name) =
      ["01.jpg", "02.jpg", "03.jpg", "04.jpg", "05.jpg"] ∧
    (resFive.map (fun p => p.2.buffers.length)).sum = 5 ∧
    (Nat.repr 5).length = 1 ∧
    zeroPad 1 (Nat.repr 5).length ++ ".jpg" = "1.jpg" ∧
    ("01.jpg" : String) ≠ "1.jpg" :=
  ⟨by decide, by decide, by decide, by decide, by decide⟩

/-- Witness for C4 at the concrete five-task result set. -/
theorem claim_C4_witness :
    (resFive.map Prod.fst).Nodup ∧
    (write_results_to_cbz resFive).storedUncompressed = true ∧
    (write_results_to_cbz resFive).entries.map (fun e => e.name) =
      (List.range' 1 5).map (fun page => zeroPad page 2 ++ ".jpg") :=
  ⟨by decide, (claim_C4 resFive (by decide)).1, by decide⟩

end Tinypic
